import Mathlib

/-!
Shallow embedding of `src/index.js` of the image2dat repository: a pipeline
that turns an exported container-image bundle into a content-addressed blob
store plus a rewritten manifest document.  Pure computations (name
simplification, digest extraction, hashing, path construction) are embedded as
Lean functions; the filesystem is an explicit association list from paths to
byte lists; promise-returning functions become `Option`-returning functions
where `none` models a promise that never resolves or a run that aborts before
the step in question; the event interleaving of one layer's stream copy is a
step relation on a small state type.
-/

/-! ## JavaScript value and string semantics helpers -/

/-- A JavaScript runtime value, restricted to the shapes this program stores in
descriptor fields: `undefined`, a number, or a string. -/
inductive JsVal where
  | undef
  | num (n : Nat)
  | str (s : String)
  deriving DecidableEq, Repr

/-- A JavaScript runtime error, restricted to what this program can throw. -/
inductive JsError where
  | referenceError (ident : String)
  deriving DecidableEq, Repr

/-- JS `String.prototype.indexOf` for a one-character needle: the index of the
first occurrence, or `-1` when absent. -/
def jsIndexOfChar (s : String) (c : Char) : Int :=
  match s.data.findIdx? (fun x => x == c) with
  | none => -1
  | some i => (i : Int)

/-- JS `String.prototype.lastIndexOf` for a one-character needle: the index of
the last occurrence, or `-1` when absent. -/
def jsLastIndexOfChar (s : String) (c : Char) : Int :=
  match s.data.reverse.findIdx? (fun x => x == c) with
  | none => -1
  | some i => ((s.data.length - 1 - i : Nat) : Int)

/-- JS `s.substring(0, stop)`: characters before position `stop`, where a
negative `stop` is clamped to `0` (so `s.substring(0, -1)` is `""`). -/
def jsSubstringTo (s : String) (stop : Int) : String :=
  String.mk (s.data.take stop.toNat)

/-- JS `s.substr(start, len)` for non-negative integer arguments: `len`
characters starting at `start`, clamped to the bounds of the string. -/
def jsSubstrNat (s : String) (start len : Nat) : String :=
  String.mk ((s.data.drop start).take len)

/-- Decimal value of a digit list, as JS ToNumber computes it for an all-digit
string. -/
def decimalValue (l : List Char) : Nat :=
  l.foldl (fun a c => a * 10 + (c.toNat - 48)) 0

/-- JS ToNumber followed by ToIntegerOrInfinity applied to a string that is
used as the `start` argument of `substr`, modelled on its decimal-integer
fragment: a nonempty all-decimal-digit string denotes that number, and every
other string (in particular any string containing a dot, a slash or a letter,
such as every `Config` value ending in `.json`) is NaN, which ToInteger maps
to `0`. -/
def jsStringToIndex (s : String) : Nat :=
  if !s.data.isEmpty && s.data.all Char.isDigit then decimalValue s.data else 0

/-! ## SHA-256, the digest `crypto.createHash("sha256")` accumulates and
`digest('hex')` renders.  Words are `Nat`s kept below `2 ^ 32` by explicit
reduction. -/

/-- Reduce a word modulo `2 ^ 32`. -/
def w32 (n : Nat) : Nat := n % 4294967296

/-- Rotate a 32-bit word right by `r` bits. -/
def rotr32 (r n : Nat) : Nat := w32 ((n >>> r) ||| (n <<< (32 - r)))

/-- SHA-256 `Ch(e, f, g)`; the bitwise complement of `e` is taken within 32
bits via xor with the all-ones word. -/
def shaCh (e f g : Nat) : Nat := (e &&& f) ^^^ ((e ^^^ 4294967295) &&& g)

/-- SHA-256 `Maj(a, b, c)`. -/
def shaMaj (a b c : Nat) : Nat := (a &&& b) ^^^ ((a &&& c) ^^^ (b &&& c))

/-- SHA-256 big sigma 0. -/
def bsig0 (x : Nat) : Nat := rotr32 2 x ^^^ rotr32 13 x ^^^ rotr32 22 x

/-- SHA-256 big sigma 1. -/
def bsig1 (x : Nat) : Nat := rotr32 6 x ^^^ rotr32 11 x ^^^ rotr32 25 x

/-- SHA-256 small sigma 0. -/
def ssig0 (x : Nat) : Nat := rotr32 7 x ^^^ rotr32 18 x ^^^ (x >>> 3)

/-- SHA-256 small sigma 1. -/
def ssig1 (x : Nat) : Nat := rotr32 17 x ^^^ rotr32 19 x ^^^ (x >>> 10)

/-- The 64 SHA-256 round constants. -/
def shaK : List Nat :=
  [1116352408, 1899447441, 3049323471, 3921009573, 961987163, 1508970993,
   2453635748, 2870763221, 3624381080, 310598401, 607225278, 1426881987,
   1925078388, 2162078206, 2614888103, 3248222580, 3835390401, 4022224774,
   264347078, 604807628, 770255983, 1249150122, 1555081692, 1996064986,
   2554220882, 2821834349, 2952996808, 3210313671, 3336571891, 3584528711,
   113926993, 338241895, 666307205, 773529912, 1294757372, 1396182291,
   1695183700, 1986661051, 2177026350, 2456956037, 2730485921, 2820302411,
   3259730800, 3345764771, 3516065817, 3600352804, 4094571909, 275423344,
   430227734, 506948616, 659060556, 883997877, 958139571, 1322822218,
   1537002063, 1747873779, 1955562222, 2024104815, 2227730452, 2361852424,
   2428436474, 2756734187, 3204031479, 3329325298]

/-- Group big-endian bytes into 32-bit words, four bytes per word. -/
def bytesToWords : List Nat → List Nat
  | a :: b :: c :: d :: rest =>
      w32 (a * 16777216 + b * 65536 + c * 256 + d) :: bytesToWords rest
  | _ => []

/-- Extend a message schedule by one word from the last 16 entries. -/
def shaScheduleStep (w : List Nat) : List Nat :=
  let n := w.length
  w ++ [w32 (w.getD (n - 16) 0 + ssig0 (w.getD (n - 15) 0) +
             w.getD (n - 7) 0 + ssig1 (w.getD (n - 2) 0))]

/-- Extend the 16 block words to the 64 schedule words. -/
def shaSchedule (w16 : List Nat) : List Nat :=
  (List.range 48).foldl (fun acc _ => shaScheduleStep acc) w16

/-- The eight 32-bit working variables of the SHA-256 state. -/
structure H8 where
  a : Nat
  b : Nat
  c : Nat
  d : Nat
  e : Nat
  f : Nat
  g : Nat
  h : Nat
  deriving DecidableEq, Repr

/-- One SHA-256 round with a paired round constant and schedule word. -/
def shaRound (s : H8) (kw : Nat × Nat) : H8 :=
  let t1 := w32 (s.h + bsig1 s.e + shaCh s.e s.f s.g + kw.1 + kw.2)
  let t2 := w32 (bsig0 s.a + shaMaj s.a s.b s.c)
  H8.mk (w32 (t1 + t2)) s.a s.b s.c (w32 (s.d + t1)) s.e s.f s.g

/-- Compress one 64-byte block into the running hash value. -/
def compressBlock (hv : H8) (block : List Nat) : H8 :=
  let ws := shaSchedule (bytesToWords block)
  let s := (shaK.zip ws).foldl shaRound hv
  H8.mk (w32 (hv.a + s.a)) (w32 (hv.b + s.b)) (w32 (hv.c + s.c)) (w32 (hv.d + s.d))
        (w32 (hv.e + s.e)) (w32 (hv.f + s.f)) (w32 (hv.g + s.g)) (w32 (hv.h + s.h))

/-- The SHA-256 initial hash value. -/
def initH : H8 :=
  H8.mk 1779033703 3144134277 1013904242 2773480762 1359893119 2600822924 528734635 1541459225

/-- The bit length of the message as eight big-endian bytes. -/
def lenBytes64 (n : Nat) : List Nat :=
  [n / 72057594037927936 % 256, n / 281474976710656 % 256, n / 1099511627776 % 256,
   n / 4294967296 % 256, n / 16777216 % 256, n / 65536 % 256, n / 256 % 256, n % 256]

/-- SHA-256 padding: a `0x80` byte, zeros to 56 mod 64, and the 64-bit length. -/
def padMessage (msg : List Nat) : List Nat :=
  msg ++ [128] ++ List.replicate ((120 - ((msg.length + 1) % 64)) % 64) 0 ++
    lenBytes64 (msg.length * 8)

/-- Split a byte list into 64-byte chunks, structurally recursive on a fuel
argument bounded by the list length (dropping 64 from a nonempty list shrinks
it, so the fuel never runs out). -/
def chunks64Go : Nat → List Nat → List (List Nat)
  | _, [] => []
  | 0, _ :: _ => []
  | fuel + 1, x :: xs => (x :: xs).take 64 :: chunks64Go fuel ((x :: xs).drop 64)

/-- Split a byte list into 64-byte chunks. -/
def chunks64 (l : List Nat) : List (List Nat) :=
  chunks64Go l.length l

/-- The four big-endian bytes of a 32-bit word. -/
def wordBytes (wv : Nat) : List Nat :=
  [wv / 16777216 % 256, wv / 65536 % 256, wv / 256 % 256, wv % 256]

/-- The 32 digest bytes of a final hash value. -/
def digestBytes (hv : H8) : List Nat :=
  wordBytes hv.a ++ wordBytes hv.b ++ wordBytes hv.c ++ wordBytes hv.d ++
  wordBytes hv.e ++ wordBytes hv.f ++ wordBytes hv.g ++ wordBytes hv.h

/-- SHA-256 of a byte list, as 32 digest bytes. -/
def sha256bytes (msg : List Nat) : List Nat :=
  digestBytes ((chunks64 (padMessage msg)).foldl compressBlock initH)

/-- The sixteen lowercase hexadecimal digit characters, in value order. -/
def hexAlphabet : List Char :=
  ("0123456789abcdef").data

/-- The lowercase hex digit of a nibble. -/
def hexDigit (n : Nat) : Char :=
  (hexAlphabet.get? (n % 16)).getD '0'

/-- The two lowercase hex digits of one byte, high nibble first. -/
def byteHex (b : Nat) : List Char :=
  [hexDigit (b / 16), hexDigit b]

/-- Lowercase hex rendering of a byte list, as a character list. -/
def bytesToHexList (bs : List Nat) : List Char :=
  bs.flatMap byteHex

/-- Lowercase hex rendering of a byte list, as Node's `digest('hex')` yields. -/
def bytesToHex (bs : List Nat) : String :=
  String.mk (bytesToHexList bs)

/-- The lowercase hex SHA-256 digest of a byte list: the value
`crypto.createHash("sha256")` fed with exactly these bytes returns from
`digest('hex')`. -/
def sha256hex (msg : List Nat) : String :=
  bytesToHex (sha256bytes msg)

/-! ## Filesystem model: an association list from absolute path strings to byte
lists.  `FS.write` replaces any previous entry at the path; `FS.rename` is the
atomic read-erase-write that `fsPromises.rename` performs, failing (promise
rejection) when the source path does not exist. -/

/-- File contents as a list of byte values. -/
abbrev Bytes := List Nat

/-- A filesystem: paths mapped to file contents. -/
abbrev FS := List (String × Bytes)

/-- Contents at a path, when the file exists. -/
def FS.read (fs : FS) (p : String) : Option Bytes :=
  (fs.find? (fun e => e.1 == p)).map (fun e => e.2)

/-- Remove the entry at a path. -/
def FS.erase (fs : FS) (p : String) : FS :=
  fs.filter (fun e => !(e.1 == p))

/-- Create or overwrite a file. -/
def FS.write (fs : FS) (p : String) (b : Bytes) : FS :=
  (p, b) :: FS.erase fs p

/-- Atomic rename, as `fsPromises.rename(src, dst)`: fails when `src` is
absent, otherwise moves the contents to `dst`. -/
def FS.rename (fs : FS) (src dst : String) : Option FS :=
  match FS.read fs src with
  | none => none
  | some b => some (FS.write (FS.erase fs src) dst b)

/-! ## Program constants and data model (src/index.js lines 8-11 and the
object shapes built in `copyRootLayer` / `compressLayer`). -/

/-- Line 8: `const ManifestVersion = 2`. -/
def ManifestVersion : Nat := 2

/-- Line 9: the manifest media type constant. -/
def ManifestType : String := "application/vnd.docker.distribution.manifest.v2+json"

/-- Line 10: the config media type constant. -/
def ConfigType : String := "application/vnd.docker.container.image.v1+json"

/-- Line 11: the layer media type constant. -/
def LayerType : String := "application/vnd.docker.image.rootfs.diff.tar.gzip"

/-- A blob descriptor object as the program builds it: `MediaType`, `Digest`
and `Size` properties.  `Size` is a `JsVal` because the program stores the
result of `await fsPromises.stat(p).size` there; a `Digest` that has not been
assigned yet is represented by `""` (the value never escapes: every completed
layer task assigns it, and `JSON.stringify` output is modelled separately). -/
structure Descriptor where
  MediaType : String
  Digest : String
  Size : JsVal
  deriving DecidableEq, Repr

/-- The manifest object `copyRootLayer` returns and `writeManifest` persists:
`SchemaVersion`, `MediaType`, `Config` and `Layers` properties (these
capitalized spellings are the ones the source writes). -/
structure Manifest where
  SchemaVersion : Nat
  MediaType : String
  Config : Descriptor
  Layers : List Descriptor
  deriving DecidableEq, Repr

/-- One entry of the source bundle's `manifest.json`: the `Config` relative
path and the ordered `Layers` relative paths. -/
structure SourceManifest where
  Config : String
  Layers : List String
  deriving DecidableEq, Repr

/-- Property access `.size` on the object `fsPromises.stat(p)` evaluates to:
`fsPromises.stat(p)` is a pending Promise, a Promise object has no `size`
property, so the access yields `undefined`, and `await undefined` is
`undefined`.  This models the expression `await fsPromises.stat(p).size` at
lines 141 and 181 of src/index.js. -/
def awaitStatDotSize (_fs : FS) (_p : String) : JsVal :=
  JsVal.undef

/-! ## NameNormalizer: `simplifyName`, src/index.js lines 85-102. -/

/-- Model of `simplifyName`.  Line 86 computes `lastIndexOf('/')`; when the
name has no slash, line 90 returns it unchanged.  Otherwise line 93 evaluates
`imageName.substr(0, content)`, and the identifier `content` is declared
nowhere in the enclosing scopes (the only `content` in the program is a `let`
local of `parseJsonFromFile`), so evaluation throws
`ReferenceError: content is not defined` before any substring is taken. -/
def simplifyName (imageName : String) : Except JsError String :=
  let lastSlashPos := jsLastIndexOfChar imageName '/'
  if lastSlashPos < 0 then
    Except.ok imageName
  else
    Except.error (JsError.referenceError "content")

/-! ## ConfigRelocator: `copyRootLayer`, src/index.js lines 126-146. -/

/-- The digest the program extracts from the `Config` value at line 129:
`config.substr(config, config.length - 5)`.  The first argument is the string
`config` itself, which `substr` coerces through ToNumber (see
`jsStringToIndex`); the length argument keeps all but the last five
characters. -/
def rootLayerShaOf (config : String) : String :=
  jsSubstrNat config (jsStringToIndex config) (config.length - 5)

/-- The destination blob path template the program uses at lines 131 and 177:
`destDir + "/work/" + imageName + "/blobs/sha256:" + sha`. -/
def blobPath (destDir imageName sha : String) : String :=
  destDir ++ "/work/" ++ imageName ++ "/blobs/sha256:" ++ sha

/-- Model of `copyRootLayer`: extract the digest from the `Config` filename,
rename the config file into the blob directory, and build the initial
manifest object with its `Config` descriptor and an empty `Layers` array.
`none` models the rename rejecting (the config file missing), which aborts
`run` through the awaited promise chain. -/
def copyRootLayer (sourceManifest : SourceManifest) (imageName sourceDir destDir : String)
    (fs : FS) : Option (FS × Manifest) :=
  let config := sourceManifest.Config
  let rootLayerSha := rootLayerShaOf config
  let destFile := blobPath destDir imageName rootLayerSha
  match FS.rename fs (sourceDir ++ "/" ++ config) destFile with
  | none => none
  | some fs1 =>
      some (fs1, Manifest.mk ManifestVersion ManifestType
        (Descriptor.mk ConfigType ("sha256:" ++ rootLayerSha) (awaitStatDotSize fs1 destFile))
        [])

/-! ## LayerHasher: `compressLayer`, src/index.js lines 158-192. -/

/-- The layer descriptor object as `copyOtherLayers` creates it at lines
207-209: only the `MediaType` property is set; `Digest` and `Size` are
assigned by the layer task on completion. -/
def initLayerJson : Descriptor :=
  Descriptor.mk LayerType "" JsVal.undef

/-- Model of `compressLayer` at the point its promise resolves: the source
layer bytes have been streamed both into the temporary destination file and
into the SHA-256 digester, the digest has been rendered as lowercase hex, the
temporary file has been renamed to the content-addressed blob path, and the
descriptor's `Size` and `Digest` have been assigned.  `none` models a promise
that never settles: the executor registers only an `end` listener on the
source stream and never calls `reject`, so when the source file cannot be
read (the stream emits `error` instead of `end`) nothing ever resolves or
rejects the promise. -/
def compressLayer (layerJson : Descriptor) (layerFile imageName sourceDir destDir : String)
    (fs : FS) : Option (FS × Descriptor) :=
  let slashPos := jsIndexOfChar layerFile '/'
  let sha0 := jsSubstringTo layerFile slashPos
  let destTempFile := destDir ++ "/" ++ sha0 ++ ".tmp"
  let sourceFile := sourceDir ++ "/" ++ layerFile
  match FS.read fs sourceFile with
  | none => none
  | some bytes =>
    let fs1 := FS.write fs destTempFile bytes
    let sha := sha256hex bytes
    let destFileName := blobPath destDir imageName sha
    match FS.rename fs1 destTempFile destFileName with
    | none => none
    | some fs2 =>
        some (fs2, Descriptor.mk layerJson.MediaType ("sha256:" ++ sha)
          (awaitStatDotSize fs2 destFileName))

/-! ## PipelineDriver composition: `copyOtherLayers` (lines 204-217),
`writeManifest` (lines 226-229) and the relevant part of `run`
(lines 239-279). -/

/-- Sequential composition of all layer tasks' filesystem effects and
descriptors, in source-manifest order.  Each task reads only its own source
file and writes only its own temporary file before the atomic rename, so the
eventual filesystem state of the concurrent execution equals this sequential
fold; `none` propagates a layer task that never settles, which stalls
`Promise.all` forever. -/
def allLayerDescriptors (layers : List String) (imageName sourceDir destDir : String)
    (fs : FS) : Option (FS × List Descriptor) :=
  match layers with
  | [] => some (fs, [])
  | l :: rest =>
    match compressLayer initLayerJson l imageName sourceDir destDir fs with
    | none => none
    | some (fs1, d) =>
      match allLayerDescriptors rest imageName sourceDir destDir fs1 with
      | none => none
      | some (fs2, ds) => some (fs2, d :: ds)

/-- The manifest object `run` holds right before `writeManifest`: the object
returned by `copyRootLayer` with its `Layers` array filled by
`copyOtherLayers`.  `none` means `run` never reaches `writeManifest` (a
rejected rename, or a layer promise that never settles). -/
def pipelineManifest (sm : SourceManifest) (imageName sourceDir destDir : String)
    (fs : FS) : Option (FS × Manifest) :=
  match copyRootLayer sm imageName sourceDir destDir fs with
  | none => none
  | some (fs1, m0) =>
    match allLayerDescriptors sm.Layers imageName sourceDir destDir fs1 with
    | none => none
    | some (fs2, ds) => some (fs2, Manifest.mk m0.SchemaVersion m0.MediaType m0.Config ds)

/-- The path `writeManifest` writes to at line 227. -/
def manifestFilePath (destDir imageName : String) : String :=
  destDir ++ "/work/" ++ imageName ++ "/manifests/latest-v2"

/-! ## The written manifest document: `JSON.stringify(manifest)` at line 228,
modelled at the level of the serialized JSON document tree.
`JSON.stringify` emits object properties in insertion order and drops every
property whose value is `undefined`. -/

/-- A JSON document tree. -/
inductive JsonVal where
  | num (n : Nat)
  | str (s : String)
  | arr (elems : List JsonVal)
  | obj (fields : List (String × JsonVal))

/-- The serialized form of a `Size` property: dropped entirely when the stored
value is `undefined`, kept otherwise. -/
def sizeEntries : JsVal → List (String × JsonVal)
  | JsVal.undef => []
  | JsVal.num n => [("Size", JsonVal.num n)]
  | JsVal.str s => [("Size", JsonVal.str s)]

/-- Serialization of the `Config` descriptor object, whose literal at lines
138-142 sets `MediaType`, `Digest`, `Size` in that order. -/
def configDescToJson (d : Descriptor) : JsonVal :=
  JsonVal.obj ([("MediaType", JsonVal.str d.MediaType), ("Digest", JsonVal.str d.Digest)] ++
    sizeEntries d.Size)

/-- Serialization of a layer descriptor object: created with `MediaType`
(line 208), then `Size` assigned (line 181), then `Digest` (line 182), so the
property insertion order is `MediaType`, `Size`, `Digest`. -/
def layerDescToJson (d : Descriptor) : JsonVal :=
  JsonVal.obj ([("MediaType", JsonVal.str d.MediaType)] ++ sizeEntries d.Size ++
    [("Digest", JsonVal.str d.Digest)])

/-- Serialization of the manifest object, whose literal at lines 135-144 sets
`SchemaVersion`, `MediaType`, `Config`, `Layers` in that order. -/
def manifestToJson (m : Manifest) : JsonVal :=
  JsonVal.obj [("SchemaVersion", JsonVal.num m.SchemaVersion),
    ("MediaType", JsonVal.str m.MediaType),
    ("Config", configDescToJson m.Config),
    ("Layers", JsonVal.arr (m.Layers.map layerDescToJson))]

/-- The keys of a JSON object, in serialization order. -/
def JsonVal.topKeys : JsonVal → List String
  | JsonVal.obj l => l.map (fun p => p.1)
  | _ => []

/-- The value of a JSON object at a key. -/
def JsonVal.getKey (j : JsonVal) (k : String) : Option JsonVal :=
  match j with
  | JsonVal.obj l => (l.find? (fun p => p.1 == k)).map (fun p => p.2)
  | _ => none

/-- The successful tail of `run` (lines 261-267): build the manifest, then
`writeManifest` persists its serialization at
`<destDir>/work/<imageName>/manifests/latest-v2`.  The result pairs that path
with the written document; `none` means the run never reaches `writeManifest`
and no manifest file is ever written. -/
def runPipeline (sm : SourceManifest) (imageName sourceDir destDir : String)
    (fs : FS) : Option (String × JsonVal) :=
  match pipelineManifest sm imageName sourceDir destDir fs with
  | none => none
  | some (_, m) => some (manifestFilePath destDir imageName, manifestToJson m)

/-! ## Completion-order model of `copyOtherLayers` (lines 204-217).  The
`layers.map(async l => ...)` callback runs synchronously up to its first
`await`, so the `manifest.Layers.push(layerJson)` calls happen in source list
order before any layer's I/O completes; each layer task then fills in exactly
its own descriptor object when its own streams finish, in an arbitrary
completion order. -/

/-- Fill slot `i` with descriptor `mk i` for each completion event `i`, in
completion order. -/
def fillSlots (mk : Nat → Descriptor) (order : List Nat) (slots : List Descriptor) :
    List Descriptor :=
  order.foldl (fun acc i => acc.set i (mk i)) slots

/-- The `manifest.Layers` array after all layer tasks complete, given the
order `order` in which the individual tasks' I/O finished: the synchronous
pushes create one slot per source layer in source order, and completion `i`
overwrites slot `i` with that layer's finished descriptor. -/
def copyOtherLayersSched (layers : List String) (mk : Nat → Descriptor)
    (order : List Nat) : List Descriptor :=
  fillSlots mk order (layers.map (fun _ => initLayerJson))

/-! ## Event-interleaving model of one `compressLayer` call (lines 158-192),
for the ordering claim between durable write and descriptor emission.  The
source stream delivers chunks to both consumers; the destination write stream
flushes its buffered chunks to the file asynchronously; `end` fires on the
source once everything is delivered; the `end` handler renames the temporary
file and then resolves the promise — without ever waiting for the destination
stream to finish flushing. -/

/-- The observable state of one layer-copy execution over a source of
`total` chunks. -/
structure LhState where
  delivered : Nat
  flushed : Nat
  srcEnded : Bool
  renamed : Bool
  resolved : Bool
  deriving DecidableEq, Repr

/-- The initial state: nothing delivered, flushed, ended, renamed or
resolved. -/
def lhInit : LhState :=
  LhState.mk 0 0 false false false

/-- The events the code can perform, as a step relation.  `deliver` is the
pipe handing one chunk to the write stream's buffer and the digester;
`flush` is the write stream persisting one buffered chunk to the file (legal
at any time after delivery, including after the rename, since the rename
moves the open file's inode); `srcEnd` is the source `end` event after full
delivery; `handlerRename` and `handlerResolve` are the two halves of the
`end` handler at lines 174-185, which awaits the rename and then resolves —
with no precondition on `flushed`. -/
inductive LhStep (total : Nat) : LhState → LhState → Prop where
  | deliver (s : LhState) (h : s.delivered < total) :
      LhStep total s (LhState.mk (s.delivered + 1) s.flushed s.srcEnded s.renamed s.resolved)
  | flush (s : LhState) (h : s.flushed < s.delivered) :
      LhStep total s (LhState.mk s.delivered (s.flushed + 1) s.srcEnded s.renamed s.resolved)
  | srcEnd (s : LhState) (h1 : s.delivered = total) (h2 : s.srcEnded = false) :
      LhStep total s (LhState.mk s.delivered s.flushed true s.renamed s.resolved)
  | handlerRename (s : LhState) (h1 : s.srcEnded = true) (h2 : s.renamed = false) :
      LhStep total s (LhState.mk s.delivered s.flushed s.srcEnded true s.resolved)
  | handlerResolve (s : LhState) (h1 : s.renamed = true) (h2 : s.resolved = false) :
      LhStep total s (LhState.mk s.delivered s.flushed s.srcEnded s.renamed true)

/-- A state of the one-chunk execution in which the promise has resolved, the
rename is done, but the chunk has not yet been flushed to the destination
file. -/
def lhResolvedUnflushed : LhState :=
  LhState.mk 1 0 true true true

/-! ## Decidable checkers used by the round-trip and content-addressing
claims. -/

/-- Check of the digest round-trip property for a completed layer task
`(fs, d)`: the descriptor's `Digest` is `"sha256:"` followed by a hex part,
the file at the blob path named by that hex part exists, its bytes hash back
to exactly that hex part, and the hex part is 64 lowercase hex characters. -/
def digestRoundTrip (destDir imageName : String) (r : FS × Descriptor) : Bool :=
  let dg := (r.2).Digest
  let hx := String.mk (dg.data.drop 7)
  (String.mk (dg.data.take 7) == "sha256:") &&
  (match FS.read r.1 (blobPath destDir imageName hx) with
   | some b => sha256hex b == hx
   | none => false) &&
  (hx.length == 64) &&
  hx.data.all (fun c => hexAlphabet.contains c)

/-- Check of the content-addressing invariant for a descriptor `d` emitted
into filesystem state `fsAfter`: the descriptor's `Digest` is `"sha256:"`
followed by a hex part, a file exists at the blob path named by that hex
part, and that path is literally the destination root, `/work/`, the image
name, `/blobs/` and the descriptor's own digest value. -/
def descPathAgrees (destDir imageName : String) (fsAfter : FS) (d : Descriptor) : Bool :=
  let hx := String.mk (d.Digest.data.drop 7)
  (String.mk (d.Digest.data.take 7) == "sha256:") &&
  (FS.read fsAfter (blobPath destDir imageName hx)).isSome &&
  (blobPath destDir imageName hx == destDir ++ "/work/" ++ imageName ++ "/blobs/" ++ d.Digest)

/-- Shape check of the written manifest document, with the key spellings the
source actually emits: top-level keys `SchemaVersion` (value 2), `MediaType`
(the manifest media type), `Config` (with the config media type) and `Layers`
(every entry with the layer media type). -/
def manifestShapeOk (j : JsonVal) : Bool :=
  (j.topKeys == ["SchemaVersion", "MediaType", "Config", "Layers"]) &&
  (match j.getKey "SchemaVersion" with
   | some (JsonVal.num n) => n == 2
   | _ => false) &&
  (match j.getKey "MediaType" with
   | some (JsonVal.str s) => s == ManifestType
   | _ => false) &&
  (match j.getKey "Config" with
   | some c =>
     (match c.getKey "MediaType" with
      | some (JsonVal.str s) => s == ConfigType
      | _ => false)
   | _ => false) &&
  (match j.getKey "Layers" with
   | some (JsonVal.arr l) =>
     l.all (fun x =>
       match x.getKey "MediaType" with
       | some (JsonVal.str s) => s == LayerType
       | _ => false)
   | _ => false)

/-! ## Concrete inputs used by the counterexamples, code-bug evaluations and
witnesses. -/

/-- A source tree with a two-byte config blob and one three-byte layer. -/
def fsRun1 : FS :=
  [("src/cfgsha.json", [1, 2]), ("src/aa/layer.tar", [97, 98, 99])]

/-- The source manifest entry matching `fsRun1`. -/
def smRun1 : SourceManifest :=
  SourceManifest.mk "cfgsha.json" ["aa/layer.tar"]

/-- A source tree that has the config blob but is missing the layer file
listed in the manifest. -/
def fsMissingLayer : FS :=
  [("src/cfg8.json", [5])]

/-- A source manifest whose single layer path does not exist in
`fsMissingLayer`. -/
def smMissingLayer : SourceManifest :=
  SourceManifest.mk "cfg8.json" ["deadbeef/layer.tar"]

/-- A second concrete source tree, for the manifest-shape counterexample. -/
def fsRun2 : FS :=
  [("src/cfg9sha.json", [7, 7]), ("src/bb/l.tar", [104, 105])]

/-- The source manifest entry matching `fsRun2`. -/
def smRun2 : SourceManifest :=
  SourceManifest.mk "cfg9sha.json" ["bb/l.tar"]

/-- A source tree with a single layer, for the round-trip witness. -/
def fsLayerOnly : FS :=
  [("src/aa/l1.tar", [97, 98, 99])]

/-- A descriptor-per-index function for the ordering witness. -/
def mkDescW : Nat → Descriptor :=
  fun i => Descriptor.mk LayerType (toString i) JsVal.undef

/-! ## String and filesystem lemmas -/

theorem strData_append (s t : String) : (s ++ t).data = s.data ++ t.data := rfl

theorem strMk_data (s : String) : String.mk s.data = s := rfl

theorem strLength_data (s : String) : s.length = s.data.length := rfl

theorem FS.read_write_self (fs : FS) (p : String) (b : Bytes) :
    FS.read (FS.write fs p b) p = some b := by
  simp [FS.read, FS.write, List.find?]

theorem FS.rename_write_self (fs : FS) (p dst : String) (b : Bytes) :
    FS.rename (FS.write fs p b) p dst =
      some (FS.write (FS.erase (FS.write fs p b) p) dst b) := by
  simp [FS.rename, FS.read_write_self]

theorem FS.rename_eq_some {fs fs' : FS} {src dst : String}
    (h : FS.rename fs src dst = some fs') :
    ∃ b, FS.read fs src = some b ∧ fs' = FS.write (FS.erase fs src) dst b := by
  cases hr : FS.read fs src with
  | none => rw [FS.rename, hr] at h; cases h
  | some b =>
    refine ⟨b, rfl, ?_⟩
    rw [FS.rename, hr] at h
    exact (Option.some.inj h).symm

theorem sha256Pre_take (s : String) :
    String.mk (("sha256:" ++ s).data.take 7) = "sha256:" := by
  rw [strData_append]
  have h7 : ("sha256:" : String).data.length = 7 := rfl
  rw [← h7, List.take_left]

theorem sha256Pre_drop (s : String) :
    String.mk (("sha256:" ++ s).data.drop 7) = s := by
  rw [strData_append]
  have h7 : ("sha256:" : String).data.length = 7 := rfl
  rw [← h7, List.drop_left]

/-! ## Digest rendering lemmas: the hex output is 64 lowercase hex
characters. -/

theorem hexDigit_mem (n : Nat) : hexDigit n ∈ hexAlphabet := by
  rw [hexDigit]
  cases hq : hexAlphabet.get? (n % 16) with
  | none => simp only [Option.getD_none]; decide
  | some x => simp only [Option.getD_some]; exact List.get?_mem hq

theorem bytesToHexList_mem {c : Char} {bs : List Nat} (h : c ∈ bytesToHexList bs) :
    c ∈ hexAlphabet := by
  induction bs with
  | nil => simp [bytesToHexList] at h
  | cons b rest ih =>
    rw [bytesToHexList, List.flatMap_cons] at h
    rcases List.mem_append.mp h with h1 | h2
    · rcases (by simpa [byteHex] using h1 : c = hexDigit (b / 16) ∨ c = hexDigit b) with rfl | rfl
      · exact hexDigit_mem _
      · exact hexDigit_mem _
    · exact ih h2

theorem bytesToHexList_length (bs : List Nat) :
    (bytesToHexList bs).length = 2 * bs.length := by
  induction bs with
  | nil => rfl
  | cons b rest ih =>
    rw [bytesToHexList, List.flatMap_cons, List.length_append]
    rw [bytesToHexList] at ih
    rw [ih]
    simp [byteHex]
    omega

theorem digestBytes_length (hv : H8) : (digestBytes hv).length = 32 := by
  simp [digestBytes, wordBytes]

theorem sha256hex_length (msg : List Nat) : (sha256hex msg).length = 64 := by
  show (bytesToHexList (sha256bytes msg)).length = 64
  rw [bytesToHexList_length, sha256bytes, digestBytes_length]

theorem sha256hex_chars {c : Char} {msg : List Nat} (h : c ∈ (sha256hex msg).data) :
    c ∈ hexAlphabet :=
  bytesToHexList_mem h

theorem sha256hex_all_hex (msg : List Nat) :
    (sha256hex msg).data.all (fun c => hexAlphabet.contains c) = true := by
  rw [List.all_eq_true]
  intro c hc
  exact List.elem_eq_true_of_mem (sha256hex_chars hc)

theorem blobPath_split (destDir imageName hx : String) :
    blobPath destDir imageName hx =
      destDir ++ "/work/" ++ imageName ++ "/blobs/" ++ ("sha256:" ++ hx) := by
  simp only [blobPath, String.append_assoc]
  have hlit : ("/blobs/sha256:" : String) ++ hx = "/blobs/" ++ ("sha256:" ++ hx) := by
    rw [← String.append_assoc]
    rfl
  rw [hlit]

/-! ## Digest-extraction lemmas for the config path -/

theorem jsStringToIndex_dotJson (stem : String) :
    jsStringToIndex (stem ++ ".json") = 0 := by
  have hall : ((stem ++ ".json").data.all Char.isDigit) = false := by
    rw [strData_append, List.all_append]
    have h2 : ((".json" : String).data.all Char.isDigit) = false := by decide
    rw [h2, Bool.and_false]
  rw [jsStringToIndex, hall, Bool.and_false]
  rfl

theorem rootLayerShaOf_dotJson (stem : String) :
    rootLayerShaOf (stem ++ ".json") = stem := by
  rw [rootLayerShaOf, jsStringToIndex_dotJson, jsSubstrNat, List.drop_zero]
  have hlen : (stem ++ ".json").length - 5 = stem.data.length := by
    rw [strLength_data, strData_append, List.length_append]
    have h5 : ((".json" : String).data.length) = 5 := rfl
    rw [h5]
    omega
  rw [hlen, strData_append, List.take_left]

/-! ## Slot-filling lemmas for the completion-order model -/

theorem fillSlots_length (mk : Nat → Descriptor) (order : List Nat)
    (slots : List Descriptor) : (fillSlots mk order slots).length = slots.length := by
  induction order generalizing slots with
  | nil => rfl
  | cons i rest ih =>
    rw [show fillSlots mk (i :: rest) slots = fillSlots mk rest (slots.set i (mk i)) from rfl,
        ih, List.length_set]

theorem fillSlots_get? (mk : Nat → Descriptor) (order : List Nat)
    (slots : List Descriptor) (j : Nat) :
    (fillSlots mk order slots).get? j =
      if j ∈ order ∧ j < slots.length then some (mk j) else slots.get? j := by
  induction order generalizing slots with
  | nil => simp [fillSlots]
  | cons i rest ih =>
    rw [show fillSlots mk (i :: rest) slots = fillSlots mk rest (slots.set i (mk i)) from rfl,
        ih, List.length_set]
    by_cases hjr : j ∈ rest ∧ j < slots.length
    · rw [if_pos hjr, if_pos ⟨List.mem_cons.mpr (Or.inr hjr.1), hjr.2⟩]
    · rw [if_neg hjr]
      rcases eq_or_ne i j with rfl | hne
      · by_cases hi : i < slots.length
        · rw [if_pos ⟨List.mem_cons.mpr (Or.inl rfl), hi⟩]
          simp [List.get?_set_eq_of_lt, hi]
        · rw [List.set_eq_of_length_le (by omega), if_neg (fun hc => hi hc.2)]
      · rw [List.get?_set_ne _ _ hne]
        have hcond : ¬(j ∈ i :: rest ∧ j < slots.length) := by
          rintro ⟨hmem, hlt⟩
          rcases List.mem_cons.mp hmem with h1 | h1
          · exact hne h1.symm
          · exact hjr ⟨h1, hlt⟩
        rw [if_neg hcond]

/-! ## Claim theorems -/

/-- C7: the claim says `simplifyName` terminates normally and returns a string
for every string input and never throws.  In fact for every input containing a
path separator the function throws `ReferenceError: content is not defined`
(the undeclared identifier read at line 93), as this evaluation at the
two-segment reference `"a/b"` shows. -/
theorem simplifyName_not_total :
    simplifyName "a/b" = Except.error (JsError.referenceError "content") := rfl

/-- C6: the claim describes `simplifyName` as inspecting the substring before
the first separator and returning either the remainder or the input unchanged.
On the code, the no-separator branch does return the input unchanged, but for
every reference containing a separator the function throws a ReferenceError
(undeclared identifier `content`) instead of inspecting anything: at
`"registry.example.com/team/app"` the claim predicts `"team/app"` and the code
throws. -/
theorem simplifyName_throws_on_separator :
    simplifyName "registry.example.com/team/app" =
        Except.error (JsError.referenceError "content") ∧
      simplifyName "ubuntu" = Except.ok "ubuntu" :=
  ⟨rfl, rfl⟩

/-- C8: the claim says a missing layer file makes the layer task fail with a
propagating read error, aborting the run.  In the code the layer promise's
executor registers only an `end` listener and never uses `reject`, so at this
concrete input (layer `"deadbeef/layer.tar"` absent from the source tree) the
layer promise never settles and `run` never reaches `writeManifest`: no
manifest file is written (that part of the claim holds), but no error ever
propagates to the driver through the promise chain. -/
theorem missing_layer_never_settles_no_manifest :
    compressLayer initLayerJson "deadbeef/layer.tar" "img" "src" "dst" fsMissingLayer = none ∧
      runPipeline smMissingLayer "img" "src" "dst" fsMissingLayer = none :=
  ⟨rfl, rfl⟩

/-- C4: the claim says every emitted descriptor's size field is a non-negative
integer equal to the stat size of the blob at its final path.  In the code the
expression `await fsPromises.stat(f).size` reads the `size` property of the
pending Promise object, which is `undefined`: in this concrete run with a
two-byte config blob and a three-byte layer, both emitted `Size` fields are
`undefined`, not the integers `2` and `3`. -/
theorem descriptor_size_is_undefined :
    (pipelineManifest smRun1 "img" "src" "dst" fsRun1).map
        (fun r => ((r.2).Config.Size, (r.2).Layers.map Descriptor.Size)) =
      some (JsVal.undef, [JsVal.undef]) ∧
    JsVal.undef ≠ JsVal.num 2 ∧ JsVal.undef ≠ JsVal.num 3 :=
  ⟨rfl, by decide, by decide⟩

/-- C5: the claim says that when a layer task resolves, all bytes have already
been flushed to the destination file and the rename has completed.  The
rename-before-resolve half holds, but the `end` handler resolves without
waiting for the destination write stream to finish: over a one-chunk source,
the state in which the promise is resolved and the rename done but the chunk
still unflushed is reachable (deliver, source end, rename, resolve — the
flush event never taken). -/
theorem resolve_reachable_before_flush :
    Relation.ReflTransGen (LhStep 1) lhInit lhResolvedUnflushed ∧
      lhResolvedUnflushed.resolved = true ∧
      lhResolvedUnflushed.renamed = true ∧
      lhResolvedUnflushed.flushed < 1 ∧
      lhResolvedUnflushed.delivered = 1 := by
  refine ⟨?_, rfl, rfl, by decide, rfl⟩
  have s1 : LhStep 1 lhInit (LhState.mk 1 0 false false false) :=
    LhStep.deliver lhInit (by decide)
  have s2 : LhStep 1 (LhState.mk 1 0 false false false) (LhState.mk 1 0 true false false) :=
    LhStep.srcEnd (LhState.mk 1 0 false false false) rfl rfl
  have s3 : LhStep 1 (LhState.mk 1 0 true false false) (LhState.mk 1 0 true true false) :=
    LhStep.handlerRename (LhState.mk 1 0 true false false) rfl rfl
  have s4 : LhStep 1 (LhState.mk 1 0 true true false) lhResolvedUnflushed :=
    LhStep.handlerResolve (LhState.mk 1 0 true true false) rfl rfl
  exact Relation.ReflTransGen.head s1 (Relation.ReflTransGen.head s2
    (Relation.ReflTransGen.head s3 (Relation.ReflTransGen.single s4)))

/-- C10: the digest `copyRootLayer` extracts from a `Config` value is the
whole string minus its last five characters, because the string first argument
of `substr` coerces through ToNumber to NaN and hence to index 0 for every
`Config` value of path shape (anything ending in `.json`): a bare
`<stem>.json` filename yields exactly `<stem>`, and a `Config` containing a
directory separator keeps that separator in the extracted digest, so the
resulting `sha256:`-prefixed digest is not of the `sha256:<64-hex>` form. -/
theorem config_digest_substr_behavior (stem : String) :
    rootLayerShaOf (stem ++ ".json") = stem ∧
      ('/' ∈ stem.data →
        '/' ∈ (rootLayerShaOf (stem ++ ".json")).data ∧
        ¬∃ hx, "sha256:" ++ rootLayerShaOf (stem ++ ".json") = "sha256:" ++ hx ∧
          hx.length = 64 ∧ hx.data.all (fun c => hexAlphabet.contains c) = true) := by
  refine ⟨rootLayerShaOf_dotJson stem, fun hs => ⟨?_, ?_⟩⟩
  · rw [rootLayerShaOf_dotJson]
    exact hs
  · rw [rootLayerShaOf_dotJson]
    rintro ⟨hx, heq, hlen, hall⟩
    have hd : stem.data = hx.data := by
      have h0 := congrArg String.data heq
      rw [strData_append, strData_append] at h0
      exact List.append_cancel_left h0
    have hmem : '/' ∈ hx.data := hd ▸ hs
    have hcontains := List.all_eq_true.mp hall '/' hmem
    exact absurd hcontains (by decide)

/-- C10 witness at the concrete `Config` value `"ab/cd.json"`. -/
theorem config_digest_substr_behavior_witness :
    rootLayerShaOf ("ab/cd" ++ ".json") = "ab/cd" ∧
      ('/' ∈ ("ab/cd" : String).data ∧
        ¬∃ hx, "sha256:" ++ rootLayerShaOf ("ab/cd" ++ ".json") = "sha256:" ++ hx ∧
          hx.length = 64 ∧ hx.data.all (fun c => hexAlphabet.contains c) = true) := by
  have h := config_digest_substr_behavior "ab/cd"
  exact ⟨h.1, by decide, (h.2 (by decide)).2⟩

/-- C3: the `Layers` sequence assembled by `copyOtherLayers` has exactly one
descriptor per source layer, in source-manifest order, for every order in
which the individual layer tasks' I/O completes: the synchronous pushes fix
the slots in source order and each completion fills only its own slot, so the
result equals the source-order sequence of per-layer descriptors no matter
which permutation of completions occurs. -/
theorem layers_order_independent_of_completion (layers : List String)
    (mk : Nat → Descriptor) (order : List Nat)
    (hperm : order.Perm (List.range layers.length)) :
    copyOtherLayersSched layers mk order = (List.range layers.length).map mk ∧
      (copyOtherLayersSched layers mk order).length = layers.length := by
  constructor
  · apply List.ext
    intro j
    rw [copyOtherLayersSched, fillSlots_get?, List.length_map]
    by_cases hj : j < layers.length
    · have hmem : j ∈ order := hperm.mem_iff.mpr (List.mem_range.mpr hj)
      rw [if_pos ⟨hmem, hj⟩, List.get?_map, List.get?_range hj]
      rfl
    · have hmem : j ∉ order := fun hin => hj (List.mem_range.mp (hperm.mem_iff.mp hin))
      rw [if_neg (fun hc => hmem hc.1)]
      rw [List.get?_eq_none.mpr (by rw [List.length_map]; omega),
          List.get?_eq_none.mpr (by rw [List.length_map, List.length_range]; omega)]
  · rw [copyOtherLayersSched, fillSlots_length, List.length_map]

/-- C3 witness: two layers whose completions happen in reverse order still
yield the source-order descriptor sequence. -/
theorem layers_order_independent_of_completion_witness :
    copyOtherLayersSched ["a/x", "b/y"] mkDescW [1, 0] =
        (List.range (["a/x", "b/y"] : List String).length).map mkDescW ∧
      (copyOtherLayersSched ["a/x", "b/y"] mkDescW [1, 0]).length =
        (["a/x", "b/y"] : List String).length :=
  layers_order_independent_of_completion ["a/x", "b/y"] mkDescW [1, 0] (by decide)


/-- Helper for C9: a completed layer task keeps the media type of the
descriptor object it was handed. -/
theorem compressLayer_mediaType {lj : Descriptor} {layerFile imageName sourceDir destDir : String}
    {fs fs2 : FS} {d : Descriptor}
    (h : compressLayer lj layerFile imageName sourceDir destDir fs = some (fs2, d)) :
    d.MediaType = lj.MediaType := by
  simp only [compressLayer] at h
  cases hr : FS.read fs (sourceDir ++ "/" ++ layerFile) with
  | none => simp [hr] at h
  | some bytes =>
    simp [hr, FS.rename_write_self] at h
    rw [← h.2]

/-- Helper for C9: every descriptor collected from the layer tasks carries the
layer media type. -/
theorem allLayerDescriptors_mediaTypes {layers : List String}
    {imageName sourceDir destDir : String} {fs fs2 : FS} {ds : List Descriptor}
    (h : allLayerDescriptors layers imageName sourceDir destDir fs = some (fs2, ds)) :
    ∀ d ∈ ds, d.MediaType = LayerType := by
  induction layers generalizing fs fs2 ds with
  | nil =>
    simp only [allLayerDescriptors, Option.some.injEq, Prod.mk.injEq] at h
    rw [← h.2]
    intro d hd
    cases hd
  | cons l rest ih =>
    rw [allLayerDescriptors] at h
    cases hc : compressLayer initLayerJson l imageName sourceDir destDir fs with
    | none => simp [hc] at h
    | some p =>
      obtain ⟨fs1, d1⟩ := p
      cases ha : allLayerDescriptors rest imageName sourceDir destDir fs1 with
      | none => simp [hc, ha] at h
      | some q =>
        obtain ⟨fs2', ds'⟩ := q
        simp only [hc, ha, Option.some.injEq, Prod.mk.injEq] at h
        intro d hd
        rw [← h.2] at hd
        rcases List.mem_cons.mp hd with rfl | hmem
        · rw [compressLayer_mediaType hc]
          rfl
        · exact ih ha d hmem

/-- C1: for every layer input on which the layer task completes, the digest in
the emitted descriptor round-trips: the descriptor's `Digest` is `sha256:`
followed by a 64-character lowercase-hex string that is exactly the SHA-256
hex digest of the bytes found at the blob's final destination path. -/
theorem compressLayer_digest_roundtrip (lj : Descriptor)
    (layerFile imageName sourceDir destDir : String) (fs : FS)
    (h : (compressLayer lj layerFile imageName sourceDir destDir fs).isSome = true) :
    (compressLayer lj layerFile imageName sourceDir destDir fs).map
      (digestRoundTrip destDir imageName) = some true := by
  simp only [compressLayer] at h ⊢
  cases hr : FS.read fs (sourceDir ++ "/" ++ layerFile) with
  | none => simp [hr] at h
  | some bytes =>
    simp [hr, FS.rename_write_self, digestRoundTrip, sha256Pre_drop, sha256Pre_take,
      FS.read_write_self, sha256hex_length, sha256hex_all_hex]
    intro x hx
    exact sha256hex_chars hx

/-- C1 witness: the round-trip check succeeds on a concrete three-byte
layer. -/
theorem compressLayer_digest_roundtrip_witness :
    (compressLayer initLayerJson "aa/l1.tar" "img" "src" "dst" fsLayerOnly).map
      (digestRoundTrip "dst" "img") = some true :=
  compressLayer_digest_roundtrip initLayerJson "aa/l1.tar" "img" "src" "dst" fsLayerOnly
    (by rfl)

/-- C2: for every blob the pipeline writes — the config blob relocated by
`copyRootLayer` and every layer blob placed by `compressLayer` — the final
path of the blob is `<destRoot>/work/<imageName>/blobs/` followed by exactly
the digest value recorded in that blob's own descriptor: a file exists at the
blob path derived from the descriptor's hex digest, and that path is
literally the destination root, `/work/`, the image name, `/blobs/` and the
descriptor's `Digest` value. -/
theorem blob_path_matches_descriptor_digest (sm : SourceManifest) (lj : Descriptor)
    (layerFile imageName sourceDir destDir : String) (fs fsL : FS)
    (h1 : (copyRootLayer sm imageName sourceDir destDir fs).isSome = true)
    (h2 : (compressLayer lj layerFile imageName sourceDir destDir fsL).isSome = true) :
    (copyRootLayer sm imageName sourceDir destDir fs).map
        (fun r => descPathAgrees destDir imageName r.1 (r.2).Config) = some true ∧
      (compressLayer lj layerFile imageName sourceDir destDir fsL).map
        (fun r => descPathAgrees destDir imageName r.1 r.2) = some true := by
  constructor
  · simp only [copyRootLayer] at h1 ⊢
    cases hre : FS.rename fs (sourceDir ++ "/" ++ sm.Config)
        (blobPath destDir imageName (rootLayerShaOf sm.Config)) with
    | none => simp [hre] at h1
    | some fs1 =>
      obtain ⟨b, hb, rfl⟩ := FS.rename_eq_some hre
      simp [hre, descPathAgrees, sha256Pre_drop, sha256Pre_take, FS.read_write_self,
        blobPath_split]
  · simp only [compressLayer] at h2 ⊢
    cases hr : FS.read fsL (sourceDir ++ "/" ++ layerFile) with
    | none => simp [hr] at h2
    | some bytes =>
      simp [hr, FS.rename_write_self, descPathAgrees, sha256Pre_drop, sha256Pre_take,
        FS.read_write_self, blobPath_split]

/-- C2 witness: both checks succeed on a concrete run with a config blob and
one layer blob. -/
theorem blob_path_matches_descriptor_digest_witness :
    (copyRootLayer smRun1 "img" "src" "dst" fsRun1).map
        (fun r => descPathAgrees "dst" "img" r.1 (r.2).Config) = some true ∧
      (compressLayer initLayerJson "aa/layer.tar" "img" "src" "dst" fsRun1).map
        (fun r => descPathAgrees "dst" "img" r.1 r.2) = some true :=
  blob_path_matches_descriptor_digest smRun1 initLayerJson "aa/layer.tar" "img" "src" "dst"
    fsRun1 fsRun1 (by rfl) (by rfl)

/-- Helper for C9: the serialized manifest object built from the program's
constants always passes the shape check, whatever the config digest, config
size value and layer descriptors are, as long as every layer descriptor
carries the layer media type. -/
theorem manifestShapeOk_mk (dg : String) (sz : JsVal) (ds : List Descriptor)
    (hds : ∀ d ∈ ds, d.MediaType = LayerType) :
    manifestShapeOk (manifestToJson (Manifest.mk ManifestVersion ManifestType
      (Descriptor.mk ConfigType dg sz) ds)) = true := by
  rw [manifestShapeOk]
  simp only [Bool.and_eq_true]
  refine ⟨⟨⟨⟨rfl, rfl⟩, rfl⟩, rfl⟩, ?_⟩
  have hL : (manifestToJson (Manifest.mk ManifestVersion ManifestType
      (Descriptor.mk ConfigType dg sz) ds)).getKey "Layers" =
      some (JsonVal.arr (ds.map layerDescToJson)) := rfl
  rw [hL]
  simp only [List.all_eq_true]
  intro x hx
  rcases List.mem_map.mp hx with ⟨d, hd, rfl⟩
  have hkey : JsonVal.getKey (layerDescToJson d) "MediaType" =
      some (JsonVal.str d.MediaType) := rfl
  rw [hkey]
  simp [hds d hd]

/-- C9 counterexample: the claim says the written manifest document has keys
`schemaVersion`, `mediaType`, `config`, `layers`.  On this concrete complete
run the document's keys are the capitalized `SchemaVersion`, `MediaType`,
`Config`, `Layers`, and none of the claimed lowercase key names is among
them — JSON keys are case-sensitive, so the claim is false. -/
theorem manifest_keys_capitalized_cex :
    (runPipeline smRun2 "img" "src" "dst" fsRun2).map (fun r => JsonVal.topKeys r.2) =
        some ["SchemaVersion", "MediaType", "Config", "Layers"] ∧
      "schemaVersion" ∉ ["SchemaVersion", "MediaType", "Config", "Layers"] ∧
      "mediaType" ∉ ["SchemaVersion", "MediaType", "Config", "Layers"] ∧
      "config" ∉ ["SchemaVersion", "MediaType", "Config", "Layers"] ∧
      "layers" ∉ ["SchemaVersion", "MediaType", "Config", "Layers"] :=
  ⟨rfl, by decide, by decide, by decide, by decide⟩

/-- C9 amended: every manifest document the pipeline writes goes to
`<destRoot>/work/<imageName>/manifests/latest-v2` and is a JSON object with
keys `SchemaVersion` (value 2), `MediaType`, `Config` and `Layers` — the
capitalized spellings the source uses — where the manifest media type is
exactly the docker v2 manifest type, the config descriptor's media type is
exactly the docker config type, and every layer descriptor's media type is
exactly the docker layer type. -/
theorem manifest_shape_amended (sm : SourceManifest) (imageName sourceDir destDir : String)
    (fs : FS)
    (h : (runPipeline sm imageName sourceDir destDir fs).isSome = true) :
    (runPipeline sm imageName sourceDir destDir fs).map
        (fun r => (r.1, manifestShapeOk r.2)) =
      some (manifestFilePath destDir imageName, true) := by
  rw [runPipeline] at h ⊢
  cases hp : pipelineManifest sm imageName sourceDir destDir fs with
  | none => simp [hp] at h
  | some r0 =>
    obtain ⟨fs2, m⟩ := r0
    simp only [hp, Option.map_some', Prod.mk.injEq, true_and]
    rw [pipelineManifest] at hp
    cases hcr : copyRootLayer sm imageName sourceDir destDir fs with
    | none => simp [hcr] at hp
    | some r1 =>
      obtain ⟨fs1, m0⟩ := r1
      cases hal : allLayerDescriptors sm.Layers imageName sourceDir destDir fs1 with
      | none => simp [hcr, hal] at hp
      | some r2 =>
        obtain ⟨fs2', ds⟩ := r2
        simp only [hcr, hal, Option.some.injEq, Prod.mk.injEq] at hp
        have hlt : ∀ d ∈ ds, d.MediaType = LayerType := allLayerDescriptors_mediaTypes hal
        obtain ⟨hfs, hm⟩ := hp
        subst hm
        simp only [copyRootLayer] at hcr
        cases hre : FS.rename fs (sourceDir ++ "/" ++ sm.Config)
            (blobPath destDir imageName (rootLayerShaOf sm.Config)) with
        | none => simp [hre] at hcr
        | some fsr =>
          simp only [hre, Option.some.injEq, Prod.mk.injEq] at hcr
          obtain ⟨hfsr, hm0⟩ := hcr
          subst hm0
          simp only [Option.some.injEq, Prod.mk.injEq, true_and]
          exact manifestShapeOk_mk _ _ ds hlt

/-- C9 amended witness: the path and shape check succeed on a concrete
complete run. -/
theorem manifest_shape_amended_witness :
    (runPipeline smRun2 "img" "src" "dst" fsRun2).map
        (fun r => (r.1, manifestShapeOk r.2)) =
      some (manifestFilePath "dst" "img", true) :=
  manifest_shape_amended smRun2 "img" "src" "dst" fsRun2 (by rfl)
